import Mathlib

/-!
Shallow embedding of `src/CapacitorHttpLink.ts` (apollo-link-capacitor-http):
the request-construction and response-translation pipeline of the Capacitor
HTTP Apollo link.  Pure parts (`rewriteURIForGET`, method selection, header
merging) become Lean functions; the Observable produced by the handler is
modelled by the finite list of events it delivers to a subscriber for a given
transport outcome.  External collaborators (`serializeFetchParameter`,
`encodeURIComponent`, the config merge of `selectHttpOptionsAndBody`) are
modelled from the spec, as marked on each definition.
-/

/-- JavaScript values as seen by `JSON.stringify`.  `unserializable` stands for
a value on which `JSON.stringify` throws (e.g. a circular structure or a
BigInt), which an inductive type cannot represent directly. -/
inductive Json where
  | null
  | bool (b : Bool)
  | num (n : Int)
  | str (s : String)
  | arr (elems : List Json)
  | obj (fields : List (String × Json))
  | unserializable
deriving Repr

/-- JavaScript truthiness of a value (`if (v)`): `null`, `false`, `0` and the
empty string are falsy; arrays and objects are always truthy. -/
def jsTruthy : Json → Bool
  | .null => false
  | .bool b => b
  | .num n => n != 0
  | .str s => s != ""
  | .arr _ => true
  | .obj _ => true
  | .unserializable => true

/-- JavaScript property access `v.k`: a field of an object, `undefined`
(modelled as `none`) otherwise. -/
def Json.getField : Json → String → Option Json
  | .obj fields, k => fields.lookup k
  | _, _ => none

/-- Truthiness of a possibly-`undefined` value (`undefined` is falsy). -/
def truthyOpt : Option Json → Bool
  | some j => jsTruthy j
  | none => false

def hexDigitUpper (n : Nat) : Char :=
  if n < 10 then Char.ofNat (48 + n) else Char.ofNat (55 + n)

def hexDigitLower (n : Nat) : Char :=
  if n < 10 then Char.ofNat (48 + n) else Char.ofNat (87 + n)

/-- JSON string escaping as performed by `JSON.stringify`: quote and backslash
are escaped, the named control escapes are used, other control characters
become lowercase `\u00xx`. -/
def escapeJsonChar (c : Char) : String :=
  if c = Char.ofNat 34 then "\\\""
  else if c = '\\' then "\\\\"
  else if c = Char.ofNat 8 then "\\b"
  else if c = Char.ofNat 12 then "\\f"
  else if c = '\n' then "\\n"
  else if c = Char.ofNat 13 then "\\r"
  else if c = Char.ofNat 9 then "\\t"
  else if c.toNat < 32 then
    "\\u00" ++ String.singleton (hexDigitLower (c.toNat / 16))
            ++ String.singleton (hexDigitLower (c.toNat % 16))
  else String.singleton c

def quoteJson (s : String) : String :=
  "\"" ++ String.join (s.toList.map escapeJsonChar) ++ "\""

def joinComma : List String → String
  | [] => ""
  | [s] => s
  | s :: rest => s ++ "," ++ joinComma rest

mutual
/-- `JSON.stringify`, returning `none` when serialization throws (the
`unserializable` marker anywhere in the value). -/
def stringify : Json → Option String
  | .null => some "null"
  | .bool b => some (cond b "true" "false")
  | .num n => some (toString n)
  | .str s => some (quoteJson s)
  | .arr elems =>
    match stringifyElems elems with
    | some parts => some ("[" ++ joinComma parts ++ "]")
    | none => none
  | .obj fields =>
    match stringifyFields fields with
    | some parts => some ("\x7b" ++ joinComma parts ++ "\x7d")
    | none => none
  | .unserializable => none

def stringifyElems : List Json → Option (List String)
  | [] => some []
  | v :: rest =>
    match stringify v, stringifyElems rest with
    | some s, some ss => some (s :: ss)
    | _, _ => none

def stringifyFields : List (String × Json) → Option (List String)
  | [] => some []
  | (k, v) :: rest =>
    match stringify v, stringifyFields rest with
    | some s, some ss => some ((quoteJson k ++ ":" ++ s) :: ss)
    | _, _ => none
end

/-- The error thrown by `serializeFetchParameter` when `JSON.stringify` fails;
we keep the label (`"Variables map"` / `"Extensions map"`) that the source
passes in. -/
structure ParseError where
  label : String
deriving Repr, DecidableEq

/-- Modelled from the spec: `serializeFetchParameter` of
`apollo-link-http-common` (an external dependency) JSON-serializes a request
parameter and throws a labelled error when serialization fails. -/
def serializeFetchParameter (p : Json) (label : String) : Except ParseError String :=
  match stringify p with
  | some s => .ok s
  | none => .error ⟨label⟩

/-- Characters `encodeURIComponent` leaves untouched:
alphanumerics and `- _ . ! ~ * ' ( )`. -/
def isUnreservedURIChar (c : Char) : Bool :=
  c.isAlphanum || c = '-' || c = '_' || c = '.' || c = '!' || c = '~'
    || c = '*' || c = Char.ofNat 39 || c = '(' || c = ')'

/-- UTF-8 encoding of a single character as a byte list. -/
def utf8Bytes (c : Char) : List Nat :=
  let n := c.toNat
  if n < 0x80 then [n]
  else if n < 0x800 then [0xC0 + n / 64, 0x80 + n % 64]
  else if n < 0x10000 then [0xE0 + n / 4096, 0x80 + (n / 64) % 64, 0x80 + n % 64]
  else [0xF0 + n / 262144, 0x80 + (n / 4096) % 64, 0x80 + (n / 64) % 64, 0x80 + n % 64]

def percentByte (b : Nat) : String :=
  "%" ++ String.singleton (hexDigitUpper (b / 16)) ++ String.singleton (hexDigitUpper (b % 16))

/-- Modelled from the spec: the JavaScript builtin `encodeURIComponent`
(the "URL-encoded" of the spec): unreserved characters stay, every other
character has each of its UTF-8 bytes percent-encoded with uppercase hex. -/
def encodeURIComponent (s : String) : String :=
  String.join (s.toList.map fun c =>
    if isUnreservedURIChar c then String.singleton c
    else String.join ((utf8Bytes c).map percentByte))

/-- The request body built by `selectHttpOptionsAndBody`
(`{query?, operationName?, variables?, extensions?}`); absent properties are
`none`. -/
structure Body where
  query : Option String
  operationName : Option String
  «variables» : Option Json
  extensions : Option Json
deriving Repr

/-- The `variables` parameter of the GET query string
(source lines 168-179): skipped when `body.variables` is falsy, otherwise
JSON-serialized (propagating the parse error) and URL-encoded. -/
def varsParam (v : Option Json) : Except ParseError (List String) :=
  match v with
  | some j =>
    if jsTruthy j then
      (serializeFetchParameter j "Variables map").map
        (fun s => ["variables=" ++ encodeURIComponent s])
    else .ok []
  | none => .ok []

/-- The `extensions` parameter of the GET query string
(source lines 180-191), analogous to `varsParam`. -/
def extsParam (x : Option Json) : Except ParseError (List String) :=
  match x with
  | some j =>
    if jsTruthy j then
      (serializeFetchParameter j "Extensions map").map
        (fun s => ["extensions=" ++ encodeURIComponent s])
    else .ok []
  | none => .ok []

/-- The query-parameter list of `rewriteURIForGET` (source lines 157-191):
`query` when the property is present, `operationName` when truthy, then
`variables` and `extensions`; a serialization failure returns the parse error
at once, before later parameters are built (`Except` bind short-circuits just
as the source's early `return`). -/
def getQueryParams (body : Body) : Except ParseError (List String) :=
  let qp := match body.query with
    | some q => ["query=" ++ encodeURIComponent q]
    | none => []
  let np := match body.operationName with
    | some n => if n != "" then ["operationName=" ++ encodeURIComponent n] else []
    | none => []
  match varsParam body.«variables» with
  | .error e => .error e
  | .ok vp =>
    match extsParam body.extensions with
    | .error e => .error e
    | .ok xp => .ok (qp ++ np ++ vp ++ xp)

/-- `indexOf('#')` / `substr` of source lines 199-205: split a URI at its first
`'#'`, the fragment keeping the `'#'`; `([uri], [])` when there is none. -/
def splitFragment : List Char → List Char × List Char
  | [] => ([], [])
  | c :: rest =>
    if c = '#' then ([], c :: rest)
    else
      let r := splitFragment rest
      (c :: r.1, r.2)

/-- JavaScript `Array.prototype.join('&')`. -/
def joinAmp : List String → String
  | [] => ""
  | [s] => s
  | s :: rest => s ++ "&" ++ joinAmp rest

/-- URI reconstruction of `rewriteURIForGET` (source lines 199-209): preserve
a fragment at the end, prefix the parameter block with `'?'` when the
pre-fragment URI has no `'?'` and with `'&'` otherwise. -/
def reconstructURI (chosenURI : String) (params : List String) : String :=
  let sp := splitFragment chosenURI.toList
  let preFragment := String.mk sp.1
  let fragment := String.mk sp.2
  let sep := if sp.1.contains '?' then "&" else "?"
  preFragment ++ sep ++ joinAmp params ++ fragment

/-- `rewriteURIForGET` (source lines 154-210): build the query parameters,
then reconstruct the URI; a parameter serialization failure is returned as
`parseError`. -/
def rewriteURIForGET (chosenURI : String) (body : Body) : Except ParseError String :=
  (getQueryParams body).map (reconstructURI chosenURI)

/-- A JavaScript string-keyed object, in insertion order. -/
abbrev Headers := List (String × String)

/-- JavaScript object spread `{...a, ...b}`: `a`'s keys in order with values
overridden by `b` where `b` has the key, then `b`'s new keys in order. -/
def spread (a b : Headers) : Headers :=
  a.map (fun kv => (kv.1, (b.lookup kv.1).getD kv.2))
    ++ b.filter (fun kv => (a.lookup kv.1).isNone)

/-- A top-level definition of the GraphQL document
(`operation.query.definitions`); non-operation definitions have a different
`kind` (and no meaningful `operation` tag). -/
structure DefinitionNode where
  kind : String
  operation : String
deriving Repr, DecidableEq

/-- `definitionIsMutation` (source lines 99-101). -/
def definitionIsMutation (d : DefinitionNode) : Bool :=
  d.kind == "OperationDefinition" && d.operation == "mutation"

/-- The method selection of source lines 102-107: force GET when
`useGETForQueries` is set and no definition is a mutation, otherwise keep the
merged method. -/
def chosenMethod (useGETForQueries : Bool) (defs : List DefinitionNode)
    (mergedMethod : String) : String :=
  if useGETForQueries && !(defs.any definitionIsMutation) then "GET" else mergedMethod

/-- `context.clientAwareness`: `{name?, version?}`. -/
structure ClientAwareness where
  name : Option String
  version : Option String
deriving Repr, DecidableEq

/-- The `fetchOptions` object; only `method` matters to this pipeline. -/
structure FetchOptions where
  method : Option String
deriving Repr, DecidableEq

/-- The `http` sub-options object of the config layers. -/
structure HttpCfg where
  includeExtensions : Bool
deriving Repr, DecidableEq

/-- The per-operation context read at source line 62. -/
structure OperationContext where
  clientAwareness : Option ClientAwareness
  headers : Headers
  fetchOptions : Option FetchOptions
  http : Option HttpCfg
  credentials : Option String
deriving Repr, DecidableEq

/-- The link options accepted by `createHttpLink` (source lines 21-40); the
`uri` provider is modelled with its static-string form. -/
structure Options where
  uri : String := "/graphql"
  includeExtensions : Bool := false
  useGETForQueries : Bool := false
  fetchOptions : Option FetchOptions := none
  credentials : Option String := none
  headers : Headers := []
deriving Repr, DecidableEq

/-- One GraphQL operation as handed to the link: its document's top-level
definitions, the printed query text, the body ingredients and the context. -/
structure Operation where
  definitions : List DefinitionNode
  printedQuery : String
  operationName : Option String
  «variables» : Option Json
  extensions : Option Json
  context : OperationContext
deriving Repr

/-- `clientAwarenessHeaders` (source lines 70-79): synthesize the
`apollographql-client-*` headers from truthy `name` / `version`. -/
def clientAwarenessHeaders (ca : Option ClientAwareness) : Headers :=
  match ca with
  | none => []
  | some c =>
    (match c.name with
      | some n => if n != "" then [("apollographql-client-name", n)] else []
      | none => [])
    ++ (match c.version with
      | some v => if v != "" then [("apollographql-client-version", v)] else []
      | none => [])

/-- Modelled from the spec: `fallbackHttpConfig.headers` of
`apollo-link-http-common`, the lowest-precedence header layer. -/
def fallbackHeaders : Headers :=
  [("accept", "*/*"), ("content-type", "application/json")]

/-- The header merge: `contextHeaders = {...clientAwarenessHeaders,
...context.headers}` (source line 81), layered over the fallback and link
headers by `selectHttpOptionsAndBody` (modelled from the spec: key-wise
override in increasing precedence fallback < link < context). -/
def mergedHeaders (opts : Options) (ctx : OperationContext) : Headers :=
  spread (spread fallbackHeaders opts.headers)
    (spread (clientAwarenessHeaders ctx.clientAwareness) ctx.headers)

/-- The headers passed to `Http.request` (source lines 128-131):
`{...options.headers, 'Content-Type': 'application/json'}`. -/
def requestHeaders (opts : Options) (ctx : OperationContext) : Headers :=
  spread (mergedHeaders opts ctx) [("Content-Type", "application/json")]

/-- Modelled from the spec: the merged transport-options method — the
highest-precedence layer defining it (context over link), default `POST`. -/
def mergedMethod (opts : Options) (ctx : OperationContext) : String :=
  match ctx.fetchOptions.bind FetchOptions.method with
  | some m => m
  | none =>
    match opts.fetchOptions.bind FetchOptions.method with
    | some m => m
    | none => "POST"

/-- Modelled from the spec: the effective `includeExtensions` flag, context
layer over link layer. -/
def effectiveIncludeExtensions (opts : Options) (ctx : OperationContext) : Bool :=
  match ctx.http with
  | some h => h.includeExtensions
  | none => opts.includeExtensions

/-- Modelled from the spec: the body built by `selectHttpOptionsAndBody` —
`{query, operationName?, variables?, extensions?}`, `extensions` only when
inclusion is enabled. -/
def operationBody (opts : Options) (op : Operation) : Body :=
  { query := some op.printedQuery
    operationName := op.operationName
    «variables» := op.«variables»
    extensions :=
      if effectiveIncludeExtensions opts op.context then op.extensions else none }

/-- The HTTP method of the operation: the merged method, possibly forced to
GET by `useGETForQueries` (source lines 98-107). -/
def operationMethod (opts : Options) (op : Operation) : String :=
  chosenMethod opts.useGETForQueries op.definitions (mergedMethod opts op.context)

/-- The single call handed to the transport capability
(`Http.request({url, method, data, headers})`, source lines 124-132);
`data` is `options.body`, never set on the GET path. -/
structure HttpRequest where
  url : String
  method : String
  data : Option Body
  headers : Headers
deriving Repr

/-- What the handler returns for one operation: either the `fromError`
observable of a parse error (no transport call) or an observable whose
subscription performs exactly one transport call. -/
inductive HandlerOutcome where
  | failed (e : ParseError)
  | request (req : HttpRequest)
deriving Repr

/-- The per-operation request handler (source lines 59-148): pick the method,
rewrite the URI for GET (short-circuiting to `fromError` on a parse error) or
attach the body for any other method, and issue the transport call. -/
def handleOperation (opts : Options) (op : Operation) : HandlerOutcome :=
  let method := operationMethod opts op
  if method = "GET" then
    match rewriteURIForGET opts.uri (operationBody opts op) with
    | .error e => .failed e
    | .ok newURI => .request ⟨newURI, method, none, requestHeaders opts op.context⟩
  else
    .request ⟨opts.uri, method, some (operationBody opts op),
      requestHeaders opts op.context⟩

/-- The resolved value of the transport promise (`{data}`). -/
structure HttpResponse where
  data : Json
deriving Repr

/-- The rejection value of the transport promise: an error object possibly
carrying `name` and `result`. -/
structure TransportErr where
  name : Option String
  result : Option Json
deriving Repr

/-- How the single transport promise settles. -/
inductive TransportOutcome where
  | resolve (response : HttpResponse)
  | reject (err : TransportErr)
deriving Repr

/-- An error surfaced on the stream: a serialization error (`fromError`) or
the transport rejection passed through. -/
inductive LinkError where
  | parse (e : ParseError)
  | transport (e : TransportErr)
deriving Repr

/-- The observable contract events. -/
inductive StreamEvent where
  | next (d : Json)
  | error (e : LinkError)
  | complete
deriving Repr

/-- The `.then` callback (source lines 133-137): `next(result.data)` then
`complete`. -/
def resolveEvents (response : HttpResponse) : List StreamEvent :=
  [.next response.data, .complete]

/-- The `.catch` callback (source lines 139-145): nothing on `AbortError`;
`next(err.result)` first when `err.result`, `err.result.errors` and
`err.result.data` are all truthy; then `error(err)`. -/
def rejectEvents (err : TransportErr) : List StreamEvent :=
  if err.name == some "AbortError" then []
  else
    (if truthyOpt err.result
        && truthyOpt ((err.result.getD .null).getField "errors")
        && truthyOpt ((err.result.getD .null).getField "data")
      then [.next (err.result.getD .null)]
      else [])
    ++ [.error (.transport err)]

/-- The events one subscriber observes: the parse error alone on the
`fromError` path, otherwise the events of the transport outcome. -/
def subscribeEvents (h : HandlerOutcome) (outcome : TransportOutcome) : List StreamEvent :=
  match h with
  | .failed e => [.error (.parse e)]
  | .request _ =>
    match outcome with
    | .resolve response => resolveEvents response
    | .reject err => rejectEvents err

/-- How many transport calls one subscription performs: none on the
`fromError` path, exactly the one `Http.request` otherwise. -/
def transportCallCount (h : HandlerOutcome) : Nat :=
  match h with
  | .failed _ => 0
  | .request _ => 1

/-! ### Lemmas about `spread` lookups -/

theorem lookup_append (l₁ l₂ : Headers) (k : String) :
    (l₁ ++ l₂).lookup k = (l₁.lookup k).or (l₂.lookup k) := by
  induction l₁ with
  | nil => simp [List.lookup]
  | cons kv rest ih =>
    obtain ⟨a, b⟩ := kv
    simp only [List.cons_append, List.lookup]
    cases h : (k == a) <;> simp [ih]

theorem lookup_spread_map (a b : Headers) (k : String) :
    ((a.map fun kv => (kv.1, (b.lookup kv.1).getD kv.2)).lookup k)
      = (a.lookup k).map (fun v => (b.lookup k).getD v) := by
  induction a with
  | nil => simp [List.lookup]
  | cons kv rest ih =>
    obtain ⟨a₀, v₀⟩ := kv
    simp only [List.map_cons, List.lookup]
    cases h : (k == a₀) with
    | true =>
      have hk : k = a₀ := eq_of_beq h
      subst hk
      simp
    | false => simpa using ih

theorem lookup_spread_filter (a b : Headers) (k : String) :
    ((b.filter fun kv => (a.lookup kv.1).isNone).lookup k)
      = if (a.lookup k).isNone then b.lookup k else none := by
  induction b with
  | nil => simp [List.lookup]
  | cons kv rest ih =>
    obtain ⟨b₀, w₀⟩ := kv
    by_cases hp : (a.lookup b₀).isNone = true
    · rw [List.filter_cons_of_pos (by simpa using hp)]
      simp only [List.lookup]
      cases h : (k == b₀) with
      | true =>
        have hk : k = b₀ := eq_of_beq h
        subst hk
        simp [hp, List.lookup]
      | false => simpa [h] using ih
    · rw [List.filter_cons_of_neg (by simpa using hp)]
      rw [ih]
      simp only [List.lookup]
      cases h : (k == b₀) with
      | true =>
        have hk : k = b₀ := eq_of_beq h
        subst hk
        simp [hp]
      | false => simp

theorem lookup_spread (a b : Headers) (k : String) :
    (spread a b).lookup k = (b.lookup k).or (a.lookup k) := by
  unfold spread
  rw [lookup_append, lookup_spread_map, lookup_spread_filter]
  cases ha : a.lookup k <;> cases hb : b.lookup k <;> simp [Option.or]

/-! ### Lemmas about `splitFragment` -/

theorem splitFragment_no_hash (l : List Char) (h : l.contains '#' = false) :
    splitFragment l = (l, []) := by
  induction l with
  | nil => rfl
  | cons c rest ih =>
    simp only [List.contains_cons, Bool.or_eq_false_iff, beq_eq_false_iff_ne] at h
    have hc : ¬ c = '#' := fun hcc => h.1 hcc.symm
    simp [splitFragment, hc, ih h.2]

theorem splitFragment_hash (pre frag : List Char) (h : pre.contains '#' = false) :
    splitFragment (pre ++ '#' :: frag) = (pre, '#' :: frag) := by
  induction pre with
  | nil => simp [splitFragment]
  | cons c rest ih =>
    simp only [List.contains_cons, Bool.or_eq_false_iff, beq_eq_false_iff_ne] at h
    have hc : ¬ c = '#' := fun hcc => h.1 hcc.symm
    simp [splitFragment, hc, ih h.2]

theorem strMk_toList (s : String) : String.mk s.toList = s := rfl

theorem strMk_data (s : String) : String.mk s.data = s := rfl

theorem toList_append (a b : String) : (a ++ b).toList = a.toList ++ b.toList :=
  String.data_append a b

theorem strAppend_empty (s : String) : s ++ "" = s := by
  cases s with
  | mk l =>
    show String.mk (l ++ []) = String.mk l
    rw [List.append_nil]

/-! ### Claim theorems -/

/-- Modelled from the spec: the parameter list the spec promises for GET
serialization — the parameters present on the body, in the fixed order
`query`, `operationName`, `variables`, `extensions`; `query` and
`operationName` URL-encoded raw strings, `variables` and `extensions`
JSON-serialized and then URL-encoded. -/
def specGETParams (body : Body) : List String :=
  (match body.query with
    | some q => ["query=" ++ encodeURIComponent q]
    | none => [])
  ++ (match body.operationName with
    | some n => if n != "" then ["operationName=" ++ encodeURIComponent n] else []
    | none => [])
  ++ (match body.«variables» with
    | some v =>
      if jsTruthy v then ["variables=" ++ encodeURIComponent ((stringify v).getD "")]
      else []
    | none => [])
  ++ (match body.extensions with
    | some x =>
      if jsTruthy x then ["extensions=" ++ encodeURIComponent ((stringify x).getD "")]
      else []
    | none => [])

theorem varsParam_ok (v : Option Json) (vp : List String) (h : varsParam v = .ok vp) :
    vp = match v with
      | some j =>
        if jsTruthy j then ["variables=" ++ encodeURIComponent ((stringify j).getD "")]
        else []
      | none => [] := by
  cases v with
  | none => simpa [varsParam] using h.symm
  | some j =>
    by_cases ht : jsTruthy j = true
    · simp only [varsParam, ht, if_pos, serializeFetchParameter] at h ⊢
      cases hs : stringify j with
      | none => rw [hs] at h; exact absurd h (by simp [Except.map])
      | some s => rw [hs] at h; simpa [Except.map] using h.symm
    · simp only [varsParam, serializeFetchParameter] at h
      rw [if_neg ht] at h
      simp only [Bool.not_eq_true] at ht
      simpa [ht] using h.symm

theorem extsParam_ok (x : Option Json) (xp : List String) (h : extsParam x = .ok xp) :
    xp = match x with
      | some j =>
        if jsTruthy j then ["extensions=" ++ encodeURIComponent ((stringify j).getD "")]
        else []
      | none => [] := by
  cases x with
  | none => simpa [extsParam] using h.symm
  | some j =>
    by_cases ht : jsTruthy j = true
    · simp only [extsParam, ht, if_pos, serializeFetchParameter] at h ⊢
      cases hs : stringify j with
      | none => rw [hs] at h; exact absurd h (by simp [Except.map])
      | some s => rw [hs] at h; simpa [Except.map] using h.symm
    · simp only [extsParam, serializeFetchParameter] at h
      rw [if_neg ht] at h
      simp only [Bool.not_eq_true] at ht
      simpa [ht] using h.symm

/-- C1: with `useGETForQueries` set, the chosen method is forced to GET
exactly when no top-level definition is a mutation, and stays the merged
transport-options method (default POST) when some definition is a mutation. -/
theorem useGETForQueries_forces_GET_iff_no_mutation :
    (∀ (opts : Options) (op : Operation), opts.useGETForQueries = true →
      operationMethod opts op =
        if op.definitions.any definitionIsMutation then mergedMethod opts op.context
        else "GET")
    ∧ (∀ (opts : Options) (ctx : OperationContext),
        opts.fetchOptions = none → ctx.fetchOptions = none →
        mergedMethod opts ctx = "POST") := by
  constructor
  · intro opts op hu
    unfold operationMethod chosenMethod
    rw [hu]
    cases h : op.definitions.any definitionIsMutation <;> simp [h]
  · intro opts ctx h₁ h₂
    unfold mergedMethod
    rw [h₁, h₂]
    rfl

theorem useGETForQueries_forces_GET_iff_no_mutation_witness :
    (operationMethod { useGETForQueries := true }
        ⟨[⟨"OperationDefinition", "query"⟩], "\x7ba\x7d", none, none, none,
          ⟨none, [], none, none, none⟩⟩
      = if ([⟨"OperationDefinition", "query"⟩] : List DefinitionNode).any definitionIsMutation
          then mergedMethod { useGETForQueries := true } ⟨none, [], none, none, none⟩
          else "GET")
    ∧ mergedMethod {} ⟨none, [], none, none, none⟩ = "POST" :=
  ⟨useGETForQueries_forces_GET_iff_no_mutation.1 _ _ rfl,
   useGETForQueries_forces_GET_iff_no_mutation.2 {} ⟨none, [], none, none, none⟩ rfl rfl⟩

/-- C2: GET serialization appends exactly the parameters present on the body
in the fixed order `query`, `operationName`, `variables`, `extensions`, with
`query`/`operationName` URL-encoded raw and `variables`/`extensions`
JSON-serialized then URL-encoded; in particular the body
`{query: "{a}", variables: {x: 1}}` against a plain base URI yields a URI
ending in `?query=%7Ba%7D&variables=%7B%22x%22%3A1%7D`. -/
theorem getSerialization_param_order :
    (∀ (body : Body) (ps : List String),
      getQueryParams body = .ok ps → ps = specGETParams body)
    ∧ rewriteURIForGET "https://h/g"
        ⟨some "\x7ba\x7d", none, some (Json.obj [("x", Json.num 1)]), none⟩
      = .ok ("https://h/g" ++ "?query=%7Ba%7D&variables=%7B%22x%22%3A1%7D") := by
  constructor
  · intro body ps h
    obtain ⟨q, n, v, x⟩ := body
    unfold getQueryParams at h
    cases hv : varsParam v with
    | error e => rw [hv] at h; simp at h
    | ok vp =>
      rw [hv] at h
      cases hx : extsParam x with
      | error e => rw [hx] at h; simp at h
      | ok xp =>
        rw [hx] at h
        simp only [Except.ok.injEq] at h
        subst h
        unfold specGETParams
        rw [varsParam_ok _ _ hv, extsParam_ok _ _ hx]
        cases v <;> cases x <;> rfl
  · rfl

theorem getSerialization_param_order_witness :
    getQueryParams ⟨some "\x7ba\x7d", some "Op", some (Json.obj [("x", Json.num 1)]),
        some (Json.arr [])⟩
      = .ok ["query=%7Ba%7D", "operationName=Op", "variables=%7B%22x%22%3A1%7D",
        "extensions=%5B%5D"]
    ∧ ["query=%7Ba%7D", "operationName=Op", "variables=%7B%22x%22%3A1%7D",
        "extensions=%5B%5D"]
      = specGETParams ⟨some "\x7ba\x7d", some "Op", some (Json.obj [("x", Json.num 1)]),
        some (Json.arr [])⟩ :=
  ⟨rfl, getSerialization_param_order.1 _ _ rfl⟩

/-- C3: when the method is GET and serialization of the body fails, the
handler returns the `fromError` stream — a single terminal `Error` with the
parse error — and the transport capability is never invoked; moreover a
`variables` serialization failure returns at once with the `Variables map`
error, before the `extensions` parameter is ever built. -/
theorem getSerializationFailure_no_transport :
    (∀ (opts : Options) (op : Operation) (e : ParseError) (outcome : TransportOutcome),
      operationMethod opts op = "GET" →
      rewriteURIForGET opts.uri (operationBody opts op) = .error e →
      handleOperation opts op = .failed e
        ∧ subscribeEvents (handleOperation opts op) outcome = [.error (.parse e)]
        ∧ transportCallCount (handleOperation opts op) = 0)
    ∧ (∀ (uri : String) (q n : Option String) (v : Json) (x : Option Json),
        jsTruthy v = true → stringify v = none →
        rewriteURIForGET uri ⟨q, n, some v, x⟩ = .error ⟨"Variables map"⟩) := by
  constructor
  · intro opts op e outcome hm hrw
    have h : handleOperation opts op = .failed e := by
      unfold handleOperation
      rw [hm, if_pos rfl, hrw]
    refine ⟨h, ?_, ?_⟩ <;> rw [h] <;> rfl
  · intro uri q n v x ht hs
    unfold rewriteURIForGET getQueryParams varsParam serializeFetchParameter
    simp [ht, hs, Except.map]

theorem getSerializationFailure_no_transport_witness :
    (handleOperation { useGETForQueries := true }
        ⟨[⟨"OperationDefinition", "query"⟩], "\x7ba\x7d", none, some Json.unserializable,
          none, ⟨none, [], none, none, none⟩⟩
      = .failed ⟨"Variables map"⟩
      ∧ subscribeEvents
          (handleOperation { useGETForQueries := true }
            ⟨[⟨"OperationDefinition", "query"⟩], "\x7ba\x7d", none, some Json.unserializable,
              none, ⟨none, [], none, none, none⟩⟩)
          (.resolve ⟨Json.null⟩)
        = [.error (.parse ⟨"Variables map"⟩)]
      ∧ transportCallCount
          (handleOperation { useGETForQueries := true }
            ⟨[⟨"OperationDefinition", "query"⟩], "\x7ba\x7d", none, some Json.unserializable,
              none, ⟨none, [], none, none, none⟩⟩)
        = 0)
    ∧ rewriteURIForGET "/graphql" ⟨some "\x7ba\x7d", none, some Json.unserializable,
        some Json.unserializable⟩ = .error ⟨"Variables map"⟩ :=
  ⟨getSerializationFailure_no_transport.1 _ _ _ _ rfl rfl,
   getSerializationFailure_no_transport.2 "/graphql" (some "\x7ba\x7d") none
     Json.unserializable (some Json.unserializable) rfl rfl⟩

/-- C4: when the transport promise resolves, the stream emits
`Next(result.data)` then `Complete`, each exactly once, and no `Error`. -/
theorem resolve_emits_next_then_complete (req : HttpRequest) (response : HttpResponse) :
    subscribeEvents (.request req) (.resolve response)
      = [.next response.data, .complete] := rfl

/-- C5 counterexample: a rejection named `AbortError` whose `err.result`
carries both `errors` and `data` emits nothing at all — the abort check runs
first — so the claim as stated fails at this input. -/
theorem reject_structured_counterexample :
    ¬ (subscribeEvents
        (.request ⟨"/graphql", "POST", none, []⟩)
        (.reject ⟨some "AbortError",
          some (Json.obj [("errors", Json.arr [Json.str "boom"]),
            ("data", Json.obj [("a", Json.num 1)])])⟩)
      = [.next (Json.obj [("errors", Json.arr [Json.str "boom"]),
            ("data", Json.obj [("a", Json.num 1)])]),
         .error (.transport ⟨some "AbortError",
          some (Json.obj [("errors", Json.arr [Json.str "boom"]),
            ("data", Json.obj [("a", Json.num 1)])])⟩)]) := by
  intro h
  have h0 : ([] : List StreamEvent)
      = [.next (Json.obj [("errors", Json.arr [Json.str "boom"]),
            ("data", Json.obj [("a", Json.num 1)])]),
         .error (.transport ⟨some "AbortError",
          some (Json.obj [("errors", Json.arr [Json.str "boom"]),
            ("data", Json.obj [("a", Json.num 1)])])⟩)] := h
  exact absurd h0 (by simp)

/-- C5 amended: for every transport rejection whose error is not named
`AbortError` and whose `err.result` is truthy with truthy `errors` and `data`
fields, the stream emits exactly one `Next(err.result)`, then exactly one
`Error(err)`, and never `Complete`. -/
theorem reject_structured_emits_next_then_error (req : HttpRequest)
    (err : TransportErr) (r : Json)
    (hname : err.name ≠ some "AbortError") (hres : err.result = some r)
    (ht : jsTruthy r = true)
    (he : truthyOpt (r.getField "errors") = true)
    (hd : truthyOpt (r.getField "data") = true) :
    subscribeEvents (.request req) (.reject err)
      = [.next r, .error (.transport err)] := by
  have he2 := he
  have hd2 := hd
  simp only [truthyOpt] at he2 hd2
  unfold subscribeEvents rejectEvents
  simp [hname, hres, truthyOpt, ht, he2, hd2]

theorem reject_structured_emits_next_then_error_witness :
    subscribeEvents (.request ⟨"/graphql", "POST", none, []⟩)
        (.reject ⟨none,
          some (Json.obj [("errors", Json.arr [Json.str "boom"]),
            ("data", Json.obj [("a", Json.num 1)])])⟩)
      = [.next (Json.obj [("errors", Json.arr [Json.str "boom"]),
            ("data", Json.obj [("a", Json.num 1)])]),
         .error (.transport ⟨none,
          some (Json.obj [("errors", Json.arr [Json.str "boom"]),
            ("data", Json.obj [("a", Json.num 1)])])⟩)] :=
  reject_structured_emits_next_then_error _ _ _ (by simp) rfl rfl rfl rfl

/-- C6: a transport rejection named `AbortError` makes the stream emit
nothing: no `Next`, no `Error`, no `Complete`. -/
theorem abort_emits_nothing (req : HttpRequest) (err : TransportErr)
    (h : err.name = some "AbortError") :
    subscribeEvents (.request req) (.reject err) = [] := by
  unfold subscribeEvents rejectEvents
  simp [h]

theorem abort_emits_nothing_witness :
    subscribeEvents (.request ⟨"/graphql", "POST", none, []⟩)
        (.reject ⟨some "AbortError", none⟩) = [] :=
  abort_emits_nothing _ _ rfl

/-- C7: URI reconstruction preserves an existing fragment at the end, uses
`?` before the parameter block when the pre-fragment URI has no `?` and `&`
otherwise, and joins parameters with `&`; in particular
`https://h/g#frag` with query `{a}` yields `https://h/g?query=%7Ba%7D#frag`,
and a base already containing `?existing=1` gets `&`, not a second `?`. -/
theorem uri_reconstruction_fragment_and_sep :
    (∀ (pre frag : String) (ps : List String),
      pre.toList.contains '#' = false →
      reconstructURI (pre ++ "#" ++ frag) ps
        = pre ++ (if pre.toList.contains '?' then "&" else "?") ++ joinAmp ps
            ++ ("#" ++ frag))
    ∧ (∀ (uri : String) (ps : List String),
      uri.toList.contains '#' = false →
      reconstructURI uri ps
        = uri ++ (if uri.toList.contains '?' then "&" else "?") ++ joinAmp ps)
    ∧ rewriteURIForGET "https://h/g#frag" ⟨some "\x7ba\x7d", none, none, none⟩
      = .ok "https://h/g?query=%7Ba%7D#frag"
    ∧ rewriteURIForGET "https://h/g?existing=1" ⟨some "\x7ba\x7d", none, none, none⟩
      = .ok "https://h/g?existing=1&query=%7Ba%7D" := by
  have reconstructURI_eq : ∀ (uri : String) (ps : List String),
      reconstructURI uri ps
        = String.mk (splitFragment uri.toList).1
            ++ (if (splitFragment uri.toList).1.contains '?' then "&" else "?")
            ++ joinAmp ps ++ String.mk (splitFragment uri.toList).2 := fun _ _ => rfl
  refine ⟨?_, ?_, rfl, rfl⟩
  · intro pre frag ps h
    have hdata : (pre ++ "#" ++ frag).toList = pre.toList ++ '#' :: frag.toList := by
      rw [toList_append, toList_append, List.append_assoc]
      rfl
    have hmk : String.mk ('#' :: frag.data) = "#" ++ frag := rfl
    rw [reconstructURI_eq, hdata, splitFragment_hash _ _ h]
    simp [strMk_toList, strMk_data, hmk]
  · intro uri ps h
    rw [reconstructURI_eq, splitFragment_no_hash _ h]
    have hmk : String.mk ([] : List Char) = "" := rfl
    simp [strMk_toList, strMk_data, hmk, strAppend_empty]

theorem uri_reconstruction_fragment_and_sep_witness :
    reconstructURI ("https://h/g" ++ "#" ++ "frag") ["query=%7Ba%7D"]
      = "https://h/g" ++ (if "https://h/g".toList.contains '?' then "&" else "?")
          ++ joinAmp ["query=%7Ba%7D"] ++ ("#" ++ "frag")
    ∧ reconstructURI "https://h/g?existing=1" ["query=%7Ba%7D"]
      = "https://h/g?existing=1"
          ++ (if "https://h/g?existing=1".toList.contains '?' then "&" else "?")
          ++ joinAmp ["query=%7Ba%7D"] :=
  ⟨uri_reconstruction_fragment_and_sep.1 "https://h/g" "frag" ["query=%7Ba%7D"]
     (by decide),
   uri_reconstruction_fragment_and_sep.2.1 "https://h/g?existing=1" ["query=%7Ba%7D"]
     (by decide)⟩

/-- C8: when the context carries `clientAwareness` with a name and version,
the outgoing headers bind `apollographql-client-name` /
`apollographql-client-version` to those values, and a same-named key in
`context.headers` overrides the client-awareness-derived value. -/
theorem clientAwareness_headers (opts : Options) (ctx : OperationContext)
    (n v : String) (hca : ctx.clientAwareness = some ⟨some n, some v⟩)
    (hn : n ≠ "") (hv : v ≠ "") :
    ((ctx.headers.lookup "apollographql-client-name" = none →
        (requestHeaders opts ctx).lookup "apollographql-client-name" = some n)
      ∧ ∀ o, ctx.headers.lookup "apollographql-client-name" = some o →
        (requestHeaders opts ctx).lookup "apollographql-client-name" = some o)
    ∧ ((ctx.headers.lookup "apollographql-client-version" = none →
        (requestHeaders opts ctx).lookup "apollographql-client-version" = some v)
      ∧ ∀ o, ctx.headers.lookup "apollographql-client-version" = some o →
        (requestHeaders opts ctx).lookup "apollographql-client-version" = some o) := by
  have hups : ∀ k : String,
      (requestHeaders opts ctx).lookup k
        = ((List.lookup k [("Content-Type", "application/json")]).or
            (((ctx.headers.lookup k).or
                ((clientAwarenessHeaders ctx.clientAwareness).lookup k)).or
              ((spread fallbackHeaders opts.headers).lookup k))) := by
    intro k
    unfold requestHeaders mergedHeaders
    rw [lookup_spread, lookup_spread, lookup_spread]
  have hca2 : clientAwarenessHeaders ctx.clientAwareness
      = [("apollographql-client-name", n), ("apollographql-client-version", v)] := by
    rw [hca]
    unfold clientAwarenessHeaders
    simp [hn, hv]
  constructor
  · constructor
    · intro h0
      rw [hups, hca2, h0]
      rfl
    · intro o h0
      rw [hups, hca2, h0]
      rfl
  · constructor
    · intro h0
      rw [hups, hca2, h0]
      rfl
    · intro o h0
      rw [hups, hca2, h0]
      rfl

theorem clientAwareness_headers_witness :
    ((requestHeaders {} ⟨some ⟨some "app", some "1.0"⟩, [], none, none, none⟩).lookup
        "apollographql-client-name" = some "app")
    ∧ ((requestHeaders {}
          ⟨some ⟨some "app", some "1.0"⟩, [("apollographql-client-name", "override")],
            none, none, none⟩).lookup "apollographql-client-name" = some "override")
    ∧ ((requestHeaders {} ⟨some ⟨some "app", some "1.0"⟩, [], none, none, none⟩).lookup
        "apollographql-client-version" = some "1.0") :=
  ⟨((clientAwareness_headers {} ⟨some ⟨some "app", some "1.0"⟩, [], none, none, none⟩
      "app" "1.0" rfl (by decide) (by decide)).1.1 rfl),
   ((clientAwareness_headers {}
      ⟨some ⟨some "app", some "1.0"⟩, [("apollographql-client-name", "override")],
        none, none, none⟩ "app" "1.0" rfl (by decide) (by decide)).1.2 "override" rfl),
   ((clientAwareness_headers {} ⟨some ⟨some "app", some "1.0"⟩, [], none, none, none⟩
      "app" "1.0" rfl (by decide) (by decide)).2.1 rfl)⟩

/-- C9: one subscription to the handler's stream performs at most one
transport call, on every path (parse failure performs none; otherwise exactly
the single `Http.request` is issued, with no retry on any outcome). -/
theorem at_most_one_transport_call (opts : Options) (op : Operation) :
    transportCallCount (handleOperation opts op) ≤ 1 := by
  cases h : handleOperation opts op <;> simp [transportCallCount]

/-- C10: every transport call carries `Content-Type: application/json` in its
headers, overriding any same-keyed value from any configuration layer. -/
theorem contentType_header_forced (opts : Options) (op : Operation)
    (req : HttpRequest) (h : handleOperation opts op = .request req) :
    req.headers.lookup "Content-Type" = some "application/json" := by
  have hreq : req.headers = requestHeaders opts op.context := by
    simp only [handleOperation] at h
    by_cases hm : operationMethod opts op = "GET"
    · rw [if_pos hm] at h
      cases hrw : rewriteURIForGET opts.uri (operationBody opts op) with
      | error e => rw [hrw] at h; exact absurd h (by simp)
      | ok u => rw [hrw] at h; cases h; rfl
    · rw [if_neg hm] at h
      cases h
      rfl
  rw [hreq]
  unfold requestHeaders
  rw [lookup_spread]
  rfl

/-- The request produced for a plain POST operation, used to witness the
`Content-Type` invariant at a concrete input. -/
def samplePostRequest : HttpRequest :=
  match handleOperation {}
      ⟨[⟨"OperationDefinition", "query"⟩], "\x7ba\x7d", none, none, none,
        ⟨none, [("Content-Type", "text/plain")], none, none, none⟩⟩ with
  | .request r => r
  | .failed _ => ⟨"", "", none, []⟩

theorem contentType_header_forced_witness :
    samplePostRequest.headers.lookup "Content-Type" = some "application/json" :=
  contentType_header_forced {}
    ⟨[⟨"OperationDefinition", "query"⟩], "\x7ba\x7d", none, none, none,
      ⟨none, [("Content-Type", "text/plain")], none, none, none⟩⟩
    samplePostRequest rfl
